import Mathlib

/-!
# Verification of the sandpile toppling engine (`src/sandpile.py`)

A shallow embedding of the `Sandpile` class: the pattern parser, the sparse
grid (an association list mirroring the Python `defaultdict(int)`, keys kept
unique and in insertion order), the stabilization loop `topple`, and the dense
export, together with the operations `double`, `resead` and `replace_pattern`.

Machine integers do not overflow in Python, so sand counts are `Nat` and
coordinates are `Int`.  The unbounded `while` loop of `topple` is embedded
with explicit fuel; exhausting the fuel and the `ZeroDivisionError` that
Python raises when the offset list is empty are the two error outcomes.
-/

/-- A lattice point `(row, column)`, used as the grid key. -/
abbrev Cell : Type := Int × Int

/-- The sparse grid: an association list from cell to sand count, in
insertion order with unique keys, mirroring Python's `defaultdict(int)`. -/
abbrev Grid : Type := List (Cell × Nat)

/-- Zero-default lookup, as reading a `defaultdict(int)` without inserting. -/
def getD : Grid → Cell → Nat
  | [], _ => 0
  | (k, w) :: rest, c => if k = c then w else getD rest c

/-- `grid[c] = v`: replace the value at the first matching key, or append a
new entry — dict assignment keeps insertion order. -/
def gset : Grid → Cell → Nat → Grid
  | [], c, v => [(c, v)]
  | (k, w) :: rest, c, v => if k = c then (c, v) :: rest else (k, w) :: gset rest c v

/-- `grid[c] += v` on a `defaultdict(int)`: add at the first matching key, or
append a new entry holding `v`. -/
def gadd : Grid → Cell → Nat → Grid
  | [], c, v => [(c, v)]
  | (k, w) :: rest, c, v => if k = c then (k, w + v) :: rest else (k, w) :: gadd rest c v

/-- Total sand stored in the grid. -/
def gsum : Grid → Nat
  | [] => 0
  | (_, w) :: rest => w + gsum rest

/-- The stored keys, in order. -/
def keys (g : Grid) : List Cell := g.map (fun e => e.1)

/-- Errors the embedded loop can produce: the `ZeroDivisionError` Python
raises when `max_per_cell = 0`, and running out of fuel (the Python loop
simply does not terminate in that case). -/
inductive SandErr : Type where
  | divByZero : SandErr
  | fuelOut : SandErr
deriving DecidableEq, Repr

/-- Python `str.split()`: split on runs of whitespace, dropping empty parts.
`acc` holds the characters of the current word, reversed. -/
def splitWsAux : List Char → List Char → List (List Char)
  | [], acc => if acc = [] then [] else [acc.reverse]
  | c :: rest, acc =>
      if c.isWhitespace then
        if acc = [] then splitWsAux rest []
        else acc.reverse :: splitWsAux rest []
      else splitWsAux rest (c :: acc)

/-- Python `int(cell)` for a decimal digit character. -/
def digitVal (c : Char) : Nat := c.toNat - 48

/-- The state held by the Python `Sandpile` object (the cached dense
`array` is modelled by the function `Sandpile.toArray` instead). -/
structure Sandpile : Type where
  sand : Nat
  sand_power : Nat
  topple_cells : List Cell
  max_per_cell : Nat
  max_dim : Int
  grid : Grid
deriving DecidableEq, Repr

/-- `Sandpile.parse`: split the pattern into rows on whitespace, take
`offset = len(rows) // 2`, and for every character that is not `'.'` append
`(offset - cix, offset - rix)` once per unit of the digit's value. -/
def Sandpile.parse (pattern : String) : List Cell :=
  let rows := splitWsAux pattern.toList []
  let offset : Int := (rows.length / 2 : Nat)
  rows.enum.foldl
    (fun acc pr =>
      pr.2.enum.foldl
        (fun acc2 pc =>
          if pc.2 ≠ '.' then
            acc2 ++ List.replicate (digitVal pc.2) (offset - pc.1, offset - pr.1)
          else acc2)
        acc)
    []

/-- `Sandpile.__init__`: seed the origin with `2 ** sand_power`, parse the
pattern, set `max_per_cell` to the offset count and `max_dim` to 1. -/
def Sandpile.init (sand_power : Nat) (pattern : String) : Sandpile :=
  { sand := 2 ^ sand_power
    sand_power := sand_power
    topple_cells := Sandpile.parse pattern
    max_per_cell := (Sandpile.parse pattern).length
    max_dim := 1
    grid := [(((0 : Int), (0 : Int)), 2 ^ sand_power)] }

/-- The `%=` write-back of one pass: every cell holding `sand ≥ threshold`
is set to `sand % threshold`; the others keep their value. -/
def stripOnce (t : Nat) (g : Grid) : Grid :=
  g.map (fun e => (e.1, if t ≤ e.2 then e.2 % t else e.2))

/-- The inner offset loop of a pass for one overflowing source cell: for each
offset, form `loc = (row + dx, col + dy)`, widen `max_dim` by the two signed
comparisons of the source, and add `per` units to `new_sand[loc]`. -/
def scatter (per : Nat) (src : Cell) : List Cell → Grid → Int → Grid × Int
  | [], ns, d => (ns, d)
  | o :: os, ns, d =>
      scatter per src os (gadd ns (src.1 + o.1, src.2 + o.2)
        (per : Nat))
        (if (if d < src.1 + o.1 then src.1 + o.1 else d) < src.2 + o.2
         then src.2 + o.2
         else (if d < src.1 + o.1 then src.1 + o.1 else d))

/-- The scan of one pass over the stored cells (with their pre-pass values):
each cell holding `v ≥ t` contributes `v / t` units along every offset into
the fresh `new_sand` map, updating `max_dim` on the way. -/
def collect (os : List Cell) (t : Nat) : List (Cell × Nat) → Grid → Int → Grid × Int
  | [], ns, d => (ns, d)
  | (c, v) :: rest, ns, d =>
      if t ≤ v then
        collect os t rest (scatter (v / t) c os ns d).1 (scatter (v / t) c os ns d).2
      else collect os t rest ns d

/-- The merge of `new_sand` into the grid: `total = grid[cell] + sand`,
written back, and `cell_max` raised to `total` whenever `total > cell_max`. -/
def mergeGo : Grid → Nat → List (Cell × Nat) → Grid × Nat
  | g, m, [] => (g, m)
  | g, m, (c, v) :: rest =>
      mergeGo (gset g c (getD g c + v))
        (if m < getD g c + v then getD g c + v else m) rest

/-- One full pass of the `while` loop of `Sandpile.topple`: scan, write back
remainders, merge the deltas.  Returns the new grid, the new `max_dim`, and
the `cell_max` observed during the merge. -/
def topplePass (os : List Cell) (t : Nat) (g : Grid) (d : Int) : Grid × Int × Nat :=
  ((mergeGo (stripOnce t g) 0 (collect os t g [] d).1).1,
   (collect os t g [] d).2,
   (mergeGo (stripOnce t g) 0 (collect os t g [] d).1).2)

/-- The `while cell_max >= max_per_cell` loop, with fuel.  When the guard
holds with `t = 0` and a non-empty grid, the first division `sand // t`
raises `ZeroDivisionError`; that is the `divByZero` outcome.  The result
carries the grid, the final `max_dim`, and the number of passes executed. -/
def toppleLoop (os : List Cell) (t : Nat) :
    Nat → Nat → Grid → Int → Except SandErr (Grid × Int × Nat)
  | 0, _, _, _ => .error .fuelOut
  | fuel + 1, cmax, g, d =>
      if t ≤ cmax then
        if t = 0 ∧ g ≠ [] then .error .divByZero
        else
          match toppleLoop os t fuel (topplePass os t g d).2.2
              (topplePass os t g d).1 (topplePass os t g d).2.1 with
          | .ok q => .ok (q.1, q.2.1, q.2.2 + 1)
          | .error e => .error e
      else .ok (g, d, 0)

/-- `Sandpile.topple`, also reporting how many passes the loop executed.
The loop starts from `cell_max = self.sand + 1`, exactly as the source. -/
def Sandpile.toppleN (s : Sandpile) (fuel : Nat) : Except SandErr (Sandpile × Nat) :=
  match toppleLoop s.topple_cells s.max_per_cell fuel (s.sand + 1) s.grid s.max_dim with
  | .ok q => .ok ({ s with grid := q.1, max_dim := q.2.1 }, q.2.2)
  | .error e => .error e

/-- `Sandpile.topple`: run the loop to convergence. -/
def Sandpile.topple (s : Sandpile) (fuel : Nat) : Except SandErr Sandpile :=
  (Sandpile.toppleN s fuel).map (fun p => p.1)

/-- The dense export computed at the end of `Sandpile.topple`:
`grid_size = max_dim * 2 + 1` and entry `(i, j)` holds the sand at cell
`(i - max_dim, j - max_dim)`.  This agrees with the source's list fill for
every grid whose stored cells lie inside the bounding box (the list
assignment in the source faults outside it). -/
def Sandpile.toArray (s : Sandpile) : List (List Nat) :=
  (List.range (s.max_dim * 2 + 1).toNat).map
    (fun i =>
      (List.range (s.max_dim * 2 + 1).toNat).map
        (fun j => getD s.grid ((i : Int) - s.max_dim, (j : Int) - s.max_dim)))

/-- `Sandpile.double` without the plotting: double every stored cell's value
in place, then topple. -/
def Sandpile.double (s : Sandpile) (fuel : Nat) : Except SandErr Sandpile :=
  Sandpile.topple { s with grid := s.grid.map (fun e => (e.1, e.2 * 2)) } fuel

/-- The grid update of `Sandpile.resead`: `self.grid[(0, 0)] = self.sand`. -/
def Sandpile.reseadSeed (s : Sandpile) : Sandpile :=
  { s with grid := gset s.grid ((0 : Int), (0 : Int)) s.sand }

/-- `Sandpile.resead` without the plotting: write the original seed into the
origin, then topple. -/
def Sandpile.resead (s : Sandpile) (fuel : Nat) : Except SandErr Sandpile :=
  Sandpile.topple (Sandpile.reseadSeed s) fuel

/-- `Sandpile.replace_pattern`: swap the offset list and threshold, leaving
the grid untouched. -/
def Sandpile.replace_pattern (s : Sandpile) (pattern : String) : Sandpile :=
  { s with topple_cells := Sandpile.parse pattern
           max_per_cell := (Sandpile.parse pattern).length }

/-- The `+` pattern from the `Sandpile.parse` docstring. -/
def plusPat : String := ".1. 1.1 .1."

/-- A pattern whose ten offsets are five `(0, 0)` and five `(-1, 0)`;
its threshold is 10. -/
def pat55 : String := "55"

/-- A pattern of delimiter characters only: its offset list is empty. -/
def patDot : String := "."

/-- A pattern whose two offsets are both `(-2, 0)`: every redistribution
target has a negative row coordinate. -/
def patLeft2 : String := "..2"

/-! ## Sand conservation (claim C2) -/

theorem gsum_gadd (g : Grid) (c : Cell) (v : Nat) : gsum (gadd g c v) = gsum g + v := by
  induction g with
  | nil => simp [gadd, gsum]
  | cons e rest ih =>
      obtain ⟨k, w⟩ := e
      by_cases h : k = c
      · simp [gadd, h, gsum]; omega
      · simp [gadd, h, gsum, ih]; omega

theorem gsum_gset_add (g : Grid) (c : Cell) (v : Nat) :
    gsum (gset g c (getD g c + v)) = gsum g + v := by
  induction g with
  | nil => simp [gset, getD, gsum]
  | cons e rest ih =>
      obtain ⟨k, w⟩ := e
      by_cases h : k = c
      · simp [gset, getD, h, gsum]; omega
      · simp [gset, getD, h, gsum, ih]; omega

theorem gsum_mergeGo (ns : List (Cell × Nat)) :
    ∀ (g : Grid) (m : Nat), gsum (mergeGo g m ns).1 = gsum g + gsum ns := by
  induction ns with
  | nil => intro g m; simp [mergeGo, gsum]
  | cons e rest ih =>
      intro g m
      obtain ⟨c, v⟩ := e
      simp only [mergeGo, gsum]
      rw [ih, gsum_gset_add]
      omega

theorem gsum_scatter (per : Nat) (src : Cell) :
    ∀ (os : List Cell) (ns : Grid) (d : Int),
      gsum (scatter per src os ns d).1 = gsum ns + per * os.length := by
  intro os
  induction os with
  | nil => intro ns d; simp [scatter]
  | cons o os ih =>
      intro ns d
      simp only [scatter, List.length_cons]
      rw [ih, gsum_gadd]
      ring

theorem collect_strip_sum (os : List Cell) (t : Nat) (hlen : os.length = t) :
    ∀ (g : List (Cell × Nat)) (ns : Grid) (d : Int),
      gsum (collect os t g ns d).1 + gsum (stripOnce t g) = gsum ns + gsum g := by
  intro g
  induction g with
  | nil => intro ns d; simp [collect, stripOnce, gsum]
  | cons e rest ih =>
      intro ns d
      obtain ⟨c, v⟩ := e
      by_cases hv : t ≤ v
      · have h1 := ih (scatter (v / t) c os ns d).1 (scatter (v / t) c os ns d).2
        have h2 := gsum_scatter (v / t) c os ns d
        have h3 : v / t * t + v % t = v := Nat.div_add_mod' v t
        rw [hlen] at h2
        simp only [collect, if_pos hv, stripOnce, List.map_cons, gsum, if_pos hv] at *
        generalize hA : v / t * t = A at h2 h3
        omega
      · have h1 := ih ns d
        simp only [collect, if_neg hv, stripOnce, List.map_cons, gsum, if_neg hv] at *
        omega

theorem gsum_topplePass (os : List Cell) (t : Nat) (hlen : os.length = t)
    (g : Grid) (d : Int) : gsum (topplePass os t g d).1 = gsum g := by
  have h1 := collect_strip_sum os t hlen g [] d
  have h2 := gsum_mergeGo (collect os t g [] d).1 (stripOnce t g) 0
  simp only [topplePass]
  simp only [gsum] at h1
  omega

theorem toppleLoop_sum (os : List Cell) (t : Nat) (hlen : os.length = t) :
    ∀ (fuel cm : Nat) (g : Grid) (d : Int) (g' : Grid) (d' : Int) (n : Nat),
      toppleLoop os t fuel cm g d = .ok (g', d', n) → gsum g' = gsum g := by
  intro fuel
  induction fuel with
  | zero => intro cm g d g' d' n h; simp [toppleLoop] at h
  | succ m ih =>
      intro cm g d g' d' n h
      simp only [toppleLoop] at h
      by_cases hc : t ≤ cm
      · rw [if_pos hc] at h
        by_cases hz : t = 0 ∧ g ≠ []
        · rw [if_pos hz] at h; simp at h
        · rw [if_neg hz] at h
          cases hrec : toppleLoop os t m (topplePass os t g d).2.2
              (topplePass os t g d).1 (topplePass os t g d).2.1 with
          | ok q =>
              rw [hrec] at h
              simp only [Except.ok.injEq, Prod.mk.injEq] at h
              obtain ⟨h1, _, _⟩ := h
              rw [← h1, ih _ _ _ _ _ _ hrec, gsum_topplePass os t hlen]
          | error e => rw [hrec] at h; simp at h
      · rw [if_neg hc] at h
        simp only [Except.ok.injEq, Prod.mk.injEq] at h
        obtain ⟨h1, _, _⟩ := h
        rw [← h1]

/-- C2: total sand is conserved.  For a state whose threshold is the
(non-zero) length of its offset list, every single redistribution pass
preserves the grid total — a toppling cell loses `quantum * threshold` and
the offset slots receive `quantum` each — and consequently whenever the
stabilization loop returns, the grid total equals the total before it ran. -/
theorem c2_conservation (s : Sandpile)
    (hlen : s.topple_cells.length = s.max_per_cell) (_hpos : 0 < s.max_per_cell) :
    (∀ (g : Grid) (d : Int),
        gsum (topplePass s.topple_cells s.max_per_cell g d).1 = gsum g) ∧
    (∀ (fuel : Nat) (s' : Sandpile) (n : Nat),
        Sandpile.toppleN s fuel = .ok (s', n) → gsum s'.grid = gsum s.grid) := by
  constructor
  · intro g d
    exact gsum_topplePass _ _ hlen g d
  · intro fuel s' n h
    simp only [Sandpile.toppleN] at h
    cases hrec : toppleLoop s.topple_cells s.max_per_cell fuel (s.sand + 1)
        s.grid s.max_dim with
    | ok q =>
        rw [hrec] at h
        simp only [Except.ok.injEq, Prod.mk.injEq] at h
        obtain ⟨h1, _⟩ := h
        rw [← h1]
        exact toppleLoop_sum _ _ hlen _ _ _ _ _ _ _ hrec
    | error e => rw [hrec] at h; simp at h

/-- Witness for `c2_conservation`: one pass on the seeded plus-pattern state
keeps the total at 4. -/
theorem c2_witness :
    gsum (topplePass (Sandpile.init 2 plusPat).topple_cells
      (Sandpile.init 2 plusPat).max_per_cell (Sandpile.init 2 plusPat).grid
      (Sandpile.init 2 plusPat).max_dim).1 = gsum (Sandpile.init 2 plusPat).grid :=
  (c2_conservation (Sandpile.init 2 plusPat) rfl (by decide)).1
    (Sandpile.init 2 plusPat).grid (Sandpile.init 2 plusPat).max_dim

/-! ## The stored-cell set never shrinks (claim C10) -/

theorem keys_gadd (g : Grid) (c : Cell) (v : Nat) : keys g ⊆ keys (gadd g c v) := by
  induction g with
  | nil => simp [gadd, keys]
  | cons e rest ih =>
      obtain ⟨k, w⟩ := e
      by_cases h : k = c
      · simp [gadd, h, keys]
      · simp only [gadd, if_neg h, keys, List.map_cons]
        exact List.cons_subset_cons _ ih

theorem keys_gset (g : Grid) (c : Cell) (v : Nat) : keys g ⊆ keys (gset g c v) := by
  induction g with
  | nil => simp [gset, keys]
  | cons e rest ih =>
      obtain ⟨k, w⟩ := e
      by_cases h : k = c
      · subst h
        simp [gset, keys]
      · simp only [gset, if_neg h, keys, List.map_cons]
        exact List.cons_subset_cons _ ih

theorem keys_stripOnce (t : Nat) (g : Grid) : keys (stripOnce t g) = keys g := by
  simp [stripOnce, keys, List.map_map]

theorem keys_mergeGo (ns : List (Cell × Nat)) :
    ∀ (g : Grid) (m : Nat), keys g ⊆ keys (mergeGo g m ns).1 := by
  induction ns with
  | nil => intro g m; simp [mergeGo]
  | cons e rest ih =>
      intro g m
      obtain ⟨c, v⟩ := e
      simp only [mergeGo]
      exact (keys_gset g c (getD g c + v)).trans (ih _ _)

theorem keys_topplePass (os : List Cell) (t : Nat) (g : Grid) (d : Int) :
    keys g ⊆ keys (topplePass os t g d).1 := by
  simp only [topplePass]
  rw [← keys_stripOnce t g]
  exact keys_mergeGo _ _ _

theorem keys_toppleLoop (os : List Cell) (t : Nat) :
    ∀ (fuel cm : Nat) (g : Grid) (d : Int) (g' : Grid) (d' : Int) (n : Nat),
      toppleLoop os t fuel cm g d = .ok (g', d', n) → keys g ⊆ keys g' := by
  intro fuel
  induction fuel with
  | zero => intro cm g d g' d' n h; simp [toppleLoop] at h
  | succ m ih =>
      intro cm g d g' d' n h
      simp only [toppleLoop] at h
      by_cases hc : t ≤ cm
      · rw [if_pos hc] at h
        by_cases hz : t = 0 ∧ g ≠ []
        · rw [if_pos hz] at h; simp at h
        · rw [if_neg hz] at h
          cases hrec : toppleLoop os t m (topplePass os t g d).2.2
              (topplePass os t g d).1 (topplePass os t g d).2.1 with
          | ok q =>
              rw [hrec] at h
              simp only [Except.ok.injEq, Prod.mk.injEq] at h
              obtain ⟨h1, _, _⟩ := h
              rw [← h1]
              exact (keys_topplePass os t g d).trans (ih _ _ _ _ _ _ hrec)
          | error e => rw [hrec] at h; simp at h
      · rw [if_neg hc] at h
        simp only [Except.ok.injEq, Prod.mk.injEq] at h
        obtain ⟨h1, _, _⟩ := h
        rw [← h1]
        exact fun x hx => hx

/-- C10: no operation removes a stored grid entry.  Every pass, every
completed stabilization loop, `double` and `resead` can only enlarge the set
of stored keys, and `replace_pattern` leaves the grid untouched — a cell
remains stored even when toppling leaves it holding exactly 0. -/
theorem c10_entries_persist :
    (∀ (os : List Cell) (t : Nat) (g : Grid) (d : Int),
        keys g ⊆ keys (topplePass os t g d).1) ∧
    (∀ (s : Sandpile) (fuel : Nat) (r : Sandpile × Nat),
        Sandpile.toppleN s fuel = .ok r → keys s.grid ⊆ keys r.1.grid) ∧
    (∀ (s : Sandpile) (fuel : Nat) (s' : Sandpile),
        Sandpile.double s fuel = .ok s' → keys s.grid ⊆ keys s'.grid) ∧
    (∀ (s : Sandpile) (fuel : Nat) (s' : Sandpile),
        Sandpile.resead s fuel = .ok s' → keys s.grid ⊆ keys s'.grid) ∧
    (∀ (s : Sandpile) (p : String), (Sandpile.replace_pattern s p).grid = s.grid) := by
  have hN : ∀ (s : Sandpile) (fuel : Nat) (r : Sandpile × Nat),
      Sandpile.toppleN s fuel = .ok r → keys s.grid ⊆ keys r.1.grid := by
    intro s fuel r h
    simp only [Sandpile.toppleN] at h
    cases hrec : toppleLoop s.topple_cells s.max_per_cell fuel (s.sand + 1)
        s.grid s.max_dim with
    | ok q =>
        rw [hrec] at h
        simp only [Except.ok.injEq] at h
        rw [← h]
        exact keys_toppleLoop _ _ _ _ _ _ _ _ _ hrec
    | error e => rw [hrec] at h; simp at h
  have hT : ∀ (s : Sandpile) (fuel : Nat) (s' : Sandpile),
      Sandpile.topple s fuel = .ok s' → keys s.grid ⊆ keys s'.grid := by
    intro s fuel s' h
    simp only [Sandpile.topple] at h
    cases hrec : Sandpile.toppleN s fuel with
    | ok r =>
        rw [hrec] at h
        simp only [Except.map, Except.ok.injEq] at h
        rw [← h]
        exact hN s fuel r hrec
    | error e => rw [hrec] at h; simp [Except.map] at h
  refine ⟨keys_topplePass, hN, ?_, ?_, fun s p => rfl⟩
  · intro s fuel s' h
    have := hT _ _ _ h
    simpa [keys, List.map_map] using this
  · intro s fuel s' h
    exact (keys_gset s.grid ((0 : Int), (0 : Int)) s.sand).trans (hT _ _ _ h)

/-- Witness for `c10_entries_persist`: the origin cell ends at value 0 after
the plus-pattern topple of seed 4 yet remains stored; here through the
`toppleN` conjunct at fuel 5. -/
theorem c10_witness :
    (((0 : Int), (0 : Int)) : Cell) ∈
      keys (topplePass (Sandpile.parse plusPat) 4 [(((0 : Int), (0 : Int)), 4)] 1).1 ∧
    (((0 : Int), (0 : Int)) : Cell) ∈ keys
      ({ sand := 4, sand_power := 2
         topple_cells := [((0, 1) : Cell), (1, 0), (-1, 0), (0, -1)]
         max_per_cell := 4, max_dim := 1
         grid := [(((0 : Int), (0 : Int)), 0), ((0, 1), 1), ((1, 0), 1),
                  ((-1, 0), 1), ((0, -1), 1)] } : Sandpile).grid := by
  constructor
  · exact c10_entries_persist.1 (Sandpile.parse plusPat) 4
      [(((0 : Int), (0 : Int)), 4)] 1 (by decide)
  · exact c10_entries_persist.2.1 (Sandpile.init 2 plusPat) 5
      ({ sand := 4, sand_power := 2
         topple_cells := [((0, 1) : Cell), (1, 0), (-1, 0), (0, -1)]
         max_per_cell := 4, max_dim := 1
         grid := [(((0 : Int), (0 : Int)), 0), ((0, 1), 1), ((1, 0), 1),
                  ((-1, 0), 1), ((0, -1), 1)] }, 1)
      rfl (by decide)

/-! ## Bounding radius tracking (claim C5) -/

/-- The redistribution targets of one source cell, in offset order. -/
def targetsOf (src : Cell) (os : List Cell) : List Cell :=
  os.map (fun o => (src.1 + o.1, src.2 + o.2))

/-- All targets recorded during one pass: those of every stored cell whose
pre-pass value reaches the threshold, in scan order. -/
def passTargets (t : Nat) (os : List Cell) (g : Grid) : List Cell :=
  (g.filter (fun e => t ≤ e.2)).flatMap (fun e => targetsOf e.1 os)

/-- Folding the signed `max_dim` update of the source over a target list. -/
def dimFold (d : Int) (l : List Cell) : Int :=
  l.foldl (fun a c => max (max a c.1) c.2) d

theorem if_lt_eq_max (a b : Int) : (if a < b then b else a) = max a b := by
  rcases le_or_lt b a with h | h
  · rw [if_neg (not_lt.mpr h), max_eq_left h]
  · rw [if_pos h, max_eq_right (le_of_lt h)]

theorem dimFold_append (d : Int) (l1 l2 : List Cell) :
    dimFold d (l1 ++ l2) = dimFold (dimFold d l1) l2 := by
  simp [dimFold, List.foldl_append]

theorem le_dimFold (d : Int) (l : List Cell) : d ≤ dimFold d l := by
  induction l generalizing d with
  | nil => simp [dimFold]
  | cons c rest ih =>
      calc d ≤ max (max d c.1) c.2 := le_trans (le_max_left _ _) (le_max_left _ _)
        _ ≤ dimFold (max (max d c.1) c.2) rest := ih _

theorem scatter_dim (per : Nat) (src : Cell) :
    ∀ (os : List Cell) (ns : Grid) (d : Int),
      (scatter per src os ns d).2 = dimFold d (targetsOf src os) := by
  intro os
  induction os with
  | nil => intro ns d; simp [scatter, targetsOf, dimFold]
  | cons o os ih =>
      intro ns d
      simp only [scatter, targetsOf, List.map_cons]
      rw [ih]
      simp only [dimFold, List.foldl_cons]
      rw [if_lt_eq_max, if_lt_eq_max]
      rfl

theorem collect_dim (os : List Cell) (t : Nat) :
    ∀ (g : List (Cell × Nat)) (ns : Grid) (d : Int),
      (collect os t g ns d).2 = dimFold d (passTargets t os g) := by
  intro g
  induction g with
  | nil => intro ns d; simp [collect, passTargets, dimFold]
  | cons e rest ih =>
      intro ns d
      obtain ⟨c, v⟩ := e
      by_cases hv : t ≤ v
      · simp only [collect, if_pos hv]
        rw [ih, scatter_dim]
        have hfil : List.filter (fun e => decide (t ≤ e.2)) ((c, v) :: rest)
            = (c, v) :: List.filter (fun e => decide (t ≤ e.2)) rest := by
          simp [List.filter_cons, hv]
        simp only [passTargets, hfil, List.flatMap_cons]
        rw [dimFold_append]
      · simp only [collect, if_neg hv]
        rw [ih]
        have hfil : List.filter (fun e => decide (t ≤ e.2)) ((c, v) :: rest)
            = List.filter (fun e => decide (t ≤ e.2)) rest := by
          simp [List.filter_cons, hv]
        simp only [passTargets, hfil]

theorem topplePass_dim (os : List Cell) (t : Nat) (g : Grid) (d : Int) :
    (topplePass os t g d).2.1 = dimFold d (passTargets t os g) := by
  simp only [topplePass]
  exact collect_dim os t g [] d

theorem toppleLoop_dim_mono (os : List Cell) (t : Nat) :
    ∀ (fuel cm : Nat) (g : Grid) (d : Int) (g' : Grid) (d' : Int) (n : Nat),
      toppleLoop os t fuel cm g d = .ok (g', d', n) → d ≤ d' := by
  intro fuel
  induction fuel with
  | zero => intro cm g d g' d' n h; simp [toppleLoop] at h
  | succ m ih =>
      intro cm g d g' d' n h
      simp only [toppleLoop] at h
      by_cases hc : t ≤ cm
      · rw [if_pos hc] at h
        by_cases hz : t = 0 ∧ g ≠ []
        · rw [if_pos hz] at h; simp at h
        · rw [if_neg hz] at h
          cases hrec : toppleLoop os t m (topplePass os t g d).2.2
              (topplePass os t g d).1 (topplePass os t g d).2.1 with
          | ok q =>
              rw [hrec] at h
              simp only [Except.ok.injEq, Prod.mk.injEq] at h
              obtain ⟨_, h2, _⟩ := h
              rw [← h2]
              have hstep : d ≤ (topplePass os t g d).2.1 := by
                rw [topplePass_dim]
                exact le_dimFold d _
              exact le_trans hstep (ih _ _ _ _ _ _ hrec)
          | error e => rw [hrec] at h; simp at h
      · rw [if_neg hc] at h
        simp only [Except.ok.injEq, Prod.mk.injEq] at h
        obtain ⟨_, h2, _⟩ := h
        rw [← h2]

/-- Counterexample to C5: with the pattern `"..2"` (both offsets `(-2, 0)`,
threshold 2) and seed 2, the first pass records the target `(-2, 0)`, whose
absolute row magnitude 2 exceeds the current radius 1, yet the radius stays
at 1 — the source compares signed coordinates, so negative coordinates never
widen it. -/
theorem c5_counterexample :
    ((-2 : Int), (0 : Int)) ∈ passTargets (Sandpile.init 1 patLeft2).max_per_cell
        (Sandpile.init 1 patLeft2).topple_cells (Sandpile.init 1 patLeft2).grid ∧
    (topplePass (Sandpile.init 1 patLeft2).topple_cells
        (Sandpile.init 1 patLeft2).max_per_cell (Sandpile.init 1 patLeft2).grid
        (Sandpile.init 1 patLeft2).max_dim).2.1 = 1 ∧
    max (Sandpile.init 1 patLeft2).max_dim (((-2 : Int).natAbs : Int)) = 2 ∧
    ¬ ((1 : Int) = 2) := by
  refine ⟨by decide, by decide, by decide, by decide⟩

/-- C5 (amended): when a redistribution target is recorded the radius is
updated with the *signed* row and column coordinates of the target, never
their absolute values — one pass leaves `max_dim` at the fold of
`max (max d row) col` over the recorded targets — and across a pass and
across the whole loop the radius never decreases. -/
theorem c5_signed_radius :
    (∀ (os : List Cell) (t : Nat) (g : Grid) (d : Int),
        (topplePass os t g d).2.1 = dimFold d (passTargets t os g)) ∧
    (∀ (d : Int) (l : List Cell), d ≤ dimFold d l) ∧
    (∀ (os : List Cell) (t fuel cm : Nat) (g : Grid) (d : Int)
        (g' : Grid) (d' : Int) (n : Nat),
        toppleLoop os t fuel cm g d = .ok (g', d', n) → d ≤ d') :=
  ⟨topplePass_dim, le_dimFold,
   fun os t fuel cm g d g' d' n h => toppleLoop_dim_mono os t fuel cm g d g' d' n h⟩

/-- Witness for `c5_signed_radius` on the seeded plus-pattern state. -/
theorem c5_witness :
    (topplePass (Sandpile.parse plusPat) 4 [(((0 : Int), (0 : Int)), 4)] 1).2.1
      = dimFold 1 (passTargets 4 (Sandpile.parse plusPat)
          [(((0 : Int), (0 : Int)), 4)]) ∧
    (1 : Int) ≤ 1 := by
  constructor
  · exact c5_signed_radius.1 (Sandpile.parse plusPat) 4 [(((0 : Int), (0 : Int)), 4)] 1
  · have h : toppleLoop (Sandpile.parse plusPat) 4 5 5 [(((0 : Int), (0 : Int)), 4)] 1
        = Except.ok ([(((0 : Int), (0 : Int)), 0), ((0, 1), 1), ((1, 0), 1),
            ((-1, 0), 1), ((0, -1), 1)], 1, 1) := rfl
    exact c5_signed_radius.2.2 (Sandpile.parse plusPat) 4 5 5
      [(((0 : Int), (0 : Int)), 4)] 1
      [(((0 : Int), (0 : Int)), 0), ((0, 1), 1), ((1, 0), 1), ((-1, 0), 1), ((0, -1), 1)]
      1 1 h

/-- Counterexample to C6: with seed power 0 and the plus pattern the loop's
starting value is `sand + 1 = 2`, not `threshold + 1 = 5`, and since
`2 < 4` the loop body is never entered: zero passes execute. -/
theorem c6_counterexample :
    Sandpile.toppleN (Sandpile.init 0 plusPat) 5 = .ok (Sandpile.init 0 plusPat, 0) ∧
    (Sandpile.init 0 plusPat).sand + 1 ≠ (Sandpile.init 0 plusPat).max_per_cell + 1 := by
  refine ⟨rfl, by decide⟩

/-- C6 (amended): the loop's observed maximum starts at `sand + 1`
(`2 ** sand_power + 1`), so given enough fuel the loop executes at least one
pass exactly when `sand + 1` reaches the threshold — and is skipped entirely
whenever the threshold exceeds `sand + 1`, whatever the grid holds. -/
theorem c6_loop_entry (s : Sandpile) (fuel n : Nat) (g' : Grid) (d' : Int)
    (hf : 0 < fuel)
    (h : toppleLoop s.topple_cells s.max_per_cell fuel (s.sand + 1)
        s.grid s.max_dim = .ok (g', d', n)) :
    1 ≤ n ↔ s.max_per_cell ≤ s.sand + 1 := by
  obtain ⟨m, rfl⟩ : ∃ m, fuel = m + 1 := ⟨fuel - 1, by omega⟩
  simp only [toppleLoop] at h
  by_cases hc : s.max_per_cell ≤ s.sand + 1
  · rw [if_pos hc] at h
    by_cases hz : s.max_per_cell = 0 ∧ s.grid ≠ []
    · rw [if_pos hz] at h; simp at h
    · rw [if_neg hz] at h
      cases hrec : toppleLoop s.topple_cells s.max_per_cell m
          (topplePass s.topple_cells s.max_per_cell s.grid s.max_dim).2.2
          (topplePass s.topple_cells s.max_per_cell s.grid s.max_dim).1
          (topplePass s.topple_cells s.max_per_cell s.grid s.max_dim).2.1 with
      | ok q =>
          rw [hrec] at h
          simp only [Except.ok.injEq, Prod.mk.injEq] at h
          obtain ⟨_, _, h3⟩ := h
          simp [← h3, hc]
      | error e => rw [hrec] at h; simp at h
  · rw [if_neg hc] at h
    simp only [Except.ok.injEq, Prod.mk.injEq] at h
    obtain ⟨_, _, h3⟩ := h
    simp [← h3, hc]

/-- Witness for `c6_loop_entry`: seed 4, plus pattern, one pass executes
and indeed `4 ≤ 5`. -/
theorem c6_witness :
    (1 ≤ 1 ↔ (Sandpile.init 2 plusPat).max_per_cell
      ≤ (Sandpile.init 2 plusPat).sand + 1) := by
  have h : toppleLoop (Sandpile.init 2 plusPat).topple_cells
      (Sandpile.init 2 plusPat).max_per_cell 5 ((Sandpile.init 2 plusPat).sand + 1)
      (Sandpile.init 2 plusPat).grid (Sandpile.init 2 plusPat).max_dim
      = Except.ok ([(((0 : Int), (0 : Int)), 0), ((0, 1), 1), ((1, 0), 1),
          ((-1, 0), 1), ((0, -1), 1)], 1, 1) := rfl
  exact c6_loop_entry (Sandpile.init 2 plusPat) 5 1
    [(((0 : Int), (0 : Int)), 0), ((0, 1), 1), ((1, 0), 1), ((-1, 0), 1), ((0, -1), 1)]
    1 (by decide) h

/-- Counterexample to C7: a fresh state whose seed 1 is already below the
plus-pattern threshold stabilizes with no redistribution, yet its bounding
radius is 1 (the constructor's initial value, not 0) and the dense export is
a 3-by-3 matrix, not a matrix of size 1. -/
theorem c7_counterexample :
    Sandpile.topple (Sandpile.init 0 plusPat) 5 = .ok (Sandpile.init 0 plusPat) ∧
    (Sandpile.init 0 plusPat).max_dim = 1 ∧
    (Sandpile.init 0 plusPat).toArray = [[0, 0, 0], [0, 1, 0], [0, 0, 0]] ∧
    ((Sandpile.init 0 plusPat).toArray).length ≠ 1 := by
  refine ⟨rfl, by decide, by decide, by decide⟩

/-- C7 (amended): when no redistribution has ever occurred — the grid still
holds only the origin with its raw (possibly unstable) value and `max_dim`
still holds its initial value 1 — the dense export is a 3-by-3 matrix with
that raw value at the centre and 0 everywhere else. -/
theorem c7_export_is_3x3 (s : Sandpile) (v : Nat)
    (h1 : s.max_dim = 1) (h2 : s.grid = [(((0 : Int), (0 : Int)), v)]) :
    Sandpile.toArray s = [[0, 0, 0], [0, v, 0], [0, 0, 0]] := by
  simp only [Sandpile.toArray, h1, h2]
  rfl

/-- Witness for `c7_export_is_3x3` at the fresh seed-1 plus-pattern state. -/
theorem c7_witness :
    Sandpile.toArray (Sandpile.init 0 plusPat) = [[0, 0, 0], [0, 1, 0], [0, 0, 0]] :=
  c7_export_is_3x3 (Sandpile.init 0 plusPat) 1 rfl rfl

/-- Counterexample to C3: with seed power 0 and the plus pattern the origin
already holds 1; `resead` leaves the origin at 1 — the seed is written over
the existing value — whereas adding the seed would give 2. -/
theorem c3_counterexample :
    getD (Sandpile.reseadSeed (Sandpile.init 0 plusPat)).grid ((0 : Int), (0 : Int)) = 1 ∧
    getD (Sandpile.init 0 plusPat).grid ((0 : Int), (0 : Int))
      + (Sandpile.init 0 plusPat).sand = 2 ∧
    (1 : Nat) ≠ 2 := by
  refine ⟨by decide, by decide, by decide⟩

theorem getD_gset_self (g : Grid) (c : Cell) (v : Nat) : getD (gset g c v) c = v := by
  induction g with
  | nil => simp [gset, getD]
  | cons e rest ih =>
      obtain ⟨k, w⟩ := e
      by_cases h : k = c
      · simp [gset, h, getD]
      · simp [gset, h, getD, ih]

/-- C3 (amended): `resead` *replaces* the origin's value with the original
seed quantity `2 ** sand_power` — whatever the origin held before, it holds
exactly `sand` immediately before the subsequent stabilization — and then
invokes the stabilization loop on the updated state. -/
theorem c3_resead_replaces (s : Sandpile) :
    getD (Sandpile.reseadSeed s).grid ((0 : Int), (0 : Int)) = s.sand ∧
    ∀ fuel : Nat, Sandpile.resead s fuel = Sandpile.topple (Sandpile.reseadSeed s) fuel :=
  ⟨getD_gset_self s.grid ((0 : Int), (0 : Int)) s.sand, fun _ => rfl⟩

/-- C1 at its failing input: pattern `"55"` has ten offsets (threshold 10)
and seed power 3 gives `sand = 8`.  `double` raises the origin to 16 and
invokes the loop, but the loop starts from `cell_max = sand + 1 = 9 < 10`
and returns immediately: the returned grid stores the origin at `16`,
which is not below the threshold. -/
theorem c1_double_returns_unstable :
    (Sandpile.init 3 pat55).max_per_cell = 10 ∧
    (Sandpile.init 3 pat55).topple_cells ≠ [] ∧
    (Sandpile.double (Sandpile.init 3 pat55) 5).map
        (fun s => getD s.grid ((0 : Int), (0 : Int))) = .ok 16 ∧
    ¬ (16 < (Sandpile.init 3 pat55).max_per_cell) := by
  refine ⟨by decide, by decide, rfl, by decide⟩

/-- C4 at its failing input: a pattern of delimiter characters only parses to
an empty offset list and threshold 0; no error is reported at construction,
and the stabilization loop is entered and hits the division by zero
(`ZeroDivisionError` in the source) on its first pass. -/
theorem c4_degenerate_divzero :
    Sandpile.parse patDot = [] ∧
    (Sandpile.init 2 patDot).max_per_cell = 0 ∧
    Sandpile.topple (Sandpile.init 2 patDot) 5 = .error .divByZero := by
  refine ⟨by decide, by decide, rfl⟩

/-- C8: the end-to-end plus-pattern scenario.  `init 2 plusPat` seeds the
origin with 4; the loop performs exactly one pass; the export is the 3-by-3
matrix with centre 0, the four edge-adjacent cells 1 and the corners 0, and
the bounding radius is 1. -/
theorem c8_plus_seed4 :
    (Sandpile.init 2 plusPat).sand = 4 ∧
    getD (Sandpile.init 2 plusPat).grid ((0 : Int), (0 : Int)) = 4 ∧
    (Sandpile.init 2 plusPat).max_per_cell = 4 ∧
    (Sandpile.toppleN (Sandpile.init 2 plusPat) 5).map
        (fun p => (p.1.toArray, p.1.max_dim, p.2))
      = .ok ([[0, 1, 0], [1, 0, 1], [0, 1, 0]], 1, 1) := by
  refine ⟨by decide, by decide, by decide, rfl⟩

/-! ## Parser correctness (claim C9) -/

/-- The parser as §4.1 of the specification words it: the center row/column
index is the integer half of the row count, and every character that is not
the delimiter contributes the offset
`(center_column - character_column, center_row - character_row)` once per
unit of the digit's value.  Stated with `flatMap` to be compared with the
source-shaped accumulating `Sandpile.parse`. -/
def parseSpeced (pattern : String) : List Cell :=
  let rows := splitWsAux pattern.toList []
  let center : Int := (rows.length / 2 : Nat)
  rows.enum.flatMap (fun pr =>
    pr.2.enum.flatMap (fun pc =>
      if pc.2 ≠ '.' then
        List.replicate (digitVal pc.2) (center - pc.1, center - pr.1)
      else []))

theorem if_append {α : Type} (b : Prop) [Decidable b] (acc r : List α) :
    (if b then acc ++ r else acc) = acc ++ (if b then r else []) := by
  split <;> simp

theorem foldl_append_flatMap {α β : Type} (f : α → List β) :
    ∀ (l : List α) (acc : List β),
      l.foldl (fun a x => a ++ f x) acc = acc ++ l.flatMap f := by
  intro l
  induction l with
  | nil => intro acc; simp
  | cons x xs ih => intro acc; simp [List.foldl_cons, ih, List.flatMap_cons]

theorem parse_eq_speced (p : String) : Sandpile.parse p = parseSpeced p := by
  simp only [Sandpile.parse, parseSpeced, if_append, foldl_append_flatMap,
    List.nil_append]

/-- C9: parsing the plus-shape pattern yields, as a multiset, the four unit
offsets with threshold 4; and in general the source parser agrees with the
spec-worded parser `parseSpeced` on every pattern string. -/
theorem c9_parse_correct :
    ((Sandpile.parse plusPat : Multiset Cell)
      = ({((-1 : Int), (0 : Int)), (1, 0), (0, 1), (0, -1)} : Multiset Cell)) ∧
    (Sandpile.parse plusPat).length = 4 ∧
    ∀ p : String, Sandpile.parse p = parseSpeced p := by
  refine ⟨by decide, by decide, parse_eq_speced⟩
